import Mathlib

/-!
Verification of `src/vinted_notifier.py` against its natural-language
specification.

The development shallowly embeds the parts of the script that the claims
are about:
* the per-profile reconciliation loop of `main` (lines 436–462),
* the history trim `history[user_id] = sorted(list(known_ids), reverse=True)[:200]`,
* `VintedClient._parse_rss_items` / `VintedClient.fetch_user_items`
  (Apify branch, `raise_for_status`, RSS parse, per-item enrichment),
* `load_history`, `post_to_discord`, and the statement-level ordering of
  the run (`load → per-profile loop → save_history → post_to_discord`).

Python dictionaries holding items are embedded as a fixed record `Item`
whose fields carry `Option` values (`none` = key absent / value `None`);
dynamically typed values that can be an `int`, a `str` or something else
are embedded as the variant `JVal`.  Machine-level details that no claim
depends on (the exact RSS entry regexes, Python's salted `hash`,
floating-point price formatting) are abstracted as inputs and flagged in
the corresponding doc comments.
-/

/-- A dynamically-typed Python value as far as the script inspects one:
an `int`, a `str`, or any other shape (`jother`). -/
inductive JVal where
  | jint (n : Int)
  | jstr (s : String)
  | jother
deriving DecidableEq, Repr

/-- An item dictionary as produced by the two fetch paths and consumed by
reconciliation, enrichment and formatting.  `id` is the raw `"id"` value
(`none` = key absent).  `photo` is the URL inside the `"photo"` dict
(`none` = missing key or empty dict `{}`).  The five size fields mirror
the keys probed by the enrichment step. -/
structure Item where
  id : Option JVal
  title : Option String
  url : Option String
  photo : Option String
  price : Option String
  size_title : Option String
  size_label : Option String
  size_text : Option String
  brand_size : Option String
  size : Option String
deriving DecidableEq, Repr

/-- An item whose only populated field is an integer id (the shape both
fetch paths produce for feed entries with a numeric `/items/<id>` link). -/
def mkItem (n : Int) : Item :=
  { id := some (JVal.jint n), title := none, url := none, photo := none,
    price := none, size_title := none, size_label := none, size_text := none,
    brand_size := none, size := none }

/-- The id normalisation both loops of `main` apply to `it.get("id")`:
an `int` is kept, a decimal-digit string is converted with `int(...)`
(`isdigit()` is exactly `String.toNat?` succeeding), anything else is not
an integer id.  Mirrors lines 439–444 and 453–458. -/
def normId (v : Option JVal) : Option Int :=
  match v with
  | some (JVal.jint n) => some n
  | some (JVal.jstr s) => (s.toNat?).map (fun n => (n : Int))
  | _ => none

/-- The filter of `main` lines 438–446: an item is new when its normalised
id is an `int` not contained in `known_ids`. -/
def isNewItem (known : List Int) (it : Item) : Bool :=
  match normId it.id with
  | some n => decide (n ∉ known)
  | none => false

/-- The sort key of `sorted(new_items, key=lambda x: x.get("id", 0))`
(line 448).  Python would compare a `str` key with an `int` key by raising
`TypeError`; both fetch paths convert digit strings to `int` before
reconciliation, so only integer keys reach this sort, and the model gives
every non-`int` id the (never relevant) key `0`. -/
def sortKeyInt (it : Item) : Int :=
  match it.id with
  | some (JVal.jint n) => n
  | _ => 0

/-- Comparison used to sort new items ascending by their sort key. -/
def itemLe (a b : Item) : Prop := sortKeyInt a ≤ sortKeyInt b

instance : DecidableRel itemLe := fun a b => by
  unfold itemLe; infer_instance

instance : IsTotal Item itemLe :=
  ⟨fun a b => le_total (sortKeyInt a) (sortKeyInt b)⟩

instance : IsTrans Item itemLe :=
  ⟨fun _ _ _ h1 h2 => le_trans h1 h2⟩

/-- `history[user_id] = sorted(list(known_ids), reverse=True)[:200]`
(line 462), where `known_ids = set(old) ∪ {normalised new ids}`:
deduplicate the union, sort it descending, keep the first 200. -/
def mergeAndTrim (old newIds : List Int) : List Int :=
  (List.insertionSort (fun a b : Int => a ≥ b) ((old ++ newIds).dedup)).take 200

/-- The per-profile reconciliation of `main` (lines 436–462) as a pure
function: from the profile's known ids and the fetched items it returns
the new items sorted ascending by id together with the updated stored
history list. -/
def reconcile (known : List Int) (items : List Item) : List Item × List Int :=
  let news := items.filter (isNewItem known)
  (List.insertionSort itemLe news,
   mergeAndTrim known (news.filterMap (fun it => normId it.id)))

/-- Items of the spec's reconciliation scenario: fetched ids 99, 100, 102. -/
def itemsScenario : List Item := [mkItem 99, mkItem 100, mkItem 102]

theorem sortKeyInt_mkItem (n : Int) : sortKeyInt (mkItem n) = n := rfl

theorem normId_of_jint {it : Item} {n : Int} (h : it.id = some (JVal.jint n)) :
    normId it.id = some n := by
  rw [h]; rfl

theorem isNewItem_eq_of_jint {known : List Int} {it : Item} {n : Int}
    (h : it.id = some (JVal.jint n)) :
    isNewItem known it = decide (sortKeyInt it ∉ known) := by
  unfold isNewItem sortKeyInt
  rw [h]
  rfl

/-- **C1.** For every profile, reconciliation selects exactly those fetched
items whose identifier is absent from that profile's history set (stated
for item lists whose ids are integers, the shape every fetch path
produces) and orders them ascending by identifier; in particular, with
history `{100, 101}` and fetched ids `{99, 100, 102}` the new items are
those with ids `99` and `102` and the updated stored history is the
descending enumeration of `{99, 100, 101, 102}`. -/
theorem reconcile_selects_unseen_and_sorts
    (known : List Int) (items : List Item)
    (h : ∀ it ∈ items, ∃ n : Int, it.id = some (JVal.jint n)) :
    ((reconcile known items).1.Perm
        (items.filter (fun it => decide (sortKeyInt it ∉ known))) ∧
      (reconcile known items).1.Sorted itemLe) ∧
    ((reconcile [100, 101] itemsScenario).1 = [mkItem 99, mkItem 102] ∧
      (reconcile [100, 101] itemsScenario).2 = [102, 101, 100, 99]) := by
  refine ⟨⟨?_, ?_⟩, by decide, by decide⟩
  · have hfil : items.filter (isNewItem known)
        = items.filter (fun it => decide (sortKeyInt it ∉ known)) := by
      apply List.filter_congr
      intro it hit
      obtain ⟨n, hn⟩ := h it hit
      exact isNewItem_eq_of_jint hn
    have hperm : (reconcile known items).1.Perm (items.filter (isNewItem known)) :=
      List.perm_insertionSort itemLe _
    rw [hfil] at hperm
    exact hperm
  · exact List.sorted_insertionSort itemLe _

/-- Witness for C1: the spec's scenario satisfies the hypothesis and the
reported outcomes. -/
theorem reconcile_selects_unseen_and_sorts_witness :
    (reconcile [100, 101] itemsScenario).1 = [mkItem 99, mkItem 102] ∧
    (reconcile [100, 101] itemsScenario).2 = [102, 101, 100, 99] := by
  have h := reconcile_selects_unseen_and_sorts [100, 101] itemsScenario
    (by intro it hit; fin_cases hit <;> exact ⟨_, rfl⟩)
  exact h.2

/-- The descending sorted enumeration of `set(old) ∪ set(newIds)` before
the `[:200]` slice is applied. -/
def sortedUnion (old newIds : List Int) : List Int :=
  List.insertionSort (fun a b : Int => a ≥ b) ((old ++ newIds).dedup)

theorem mergeAndTrim_eq_take :
    mergeAndTrim old newIds = (sortedUnion old newIds).take 200 := rfl

theorem sortedUnion_perm (old newIds : List Int) :
    (sortedUnion old newIds).Perm ((old ++ newIds).dedup) :=
  List.perm_insertionSort _ _

theorem sortedUnion_sorted (old newIds : List Int) :
    (sortedUnion old newIds).Sorted (fun a b : Int => a ≥ b) :=
  List.sorted_insertionSort _ _

theorem sortedUnion_nodup (old newIds : List Int) :
    (sortedUnion old newIds).Nodup :=
  ((sortedUnion_perm old newIds).symm).nodup (List.nodup_dedup _)

theorem mem_sortedUnion {old newIds : List Int} {x : Int} :
    x ∈ sortedUnion old newIds ↔ x ∈ old ∨ x ∈ newIds := by
  rw [(sortedUnion_perm old newIds).mem_iff, List.mem_dedup, List.mem_append]

theorem mem_mergeAndTrim_of_mem {old newIds : List Int} {x : Int}
    (h : x ∈ mergeAndTrim old newIds) : x ∈ old ∨ x ∈ newIds := by
  rw [mergeAndTrim_eq_take] at h
  exact mem_sortedUnion.mp ((List.take_sublist _ _).mem h)

theorem mergeAndTrim_nodup (old newIds : List Int) :
    (mergeAndTrim old newIds).Nodup :=
  (List.take_sublist _ _).nodup (sortedUnion_nodup old newIds)

theorem mergeAndTrim_length (old newIds : List Int) :
    (mergeAndTrim old newIds).length = min 200 ((old ++ newIds).dedup).length := by
  rw [mergeAndTrim_eq_take, List.length_take,
    (sortedUnion_perm old newIds).length_eq]

/-- Every identifier the trim keeps dominates every identifier it drops. -/
theorem mergeAndTrim_keeps_largest {old newIds : List Int} {x y : Int}
    (hy : y ∈ old ∨ y ∈ newIds) (hyn : y ∉ mergeAndTrim old newIds)
    (hx : x ∈ mergeAndTrim old newIds) : y ≤ x := by
  have hyS : y ∈ sortedUnion old newIds := mem_sortedUnion.mpr hy
  have hsplit : (sortedUnion old newIds).take 200 ++ (sortedUnion old newIds).drop 200
      = sortedUnion old newIds := List.take_append_drop 200 _
  have hsorted := sortedUnion_sorted old newIds
  rw [← hsplit] at hsorted
  have hcross := (List.pairwise_append.mp hsorted).2.2
  have hyd : y ∈ (sortedUnion old newIds).drop 200 := by
    rw [← hsplit] at hyS
    rcases List.mem_append.mp hyS with h | h
    · exact absurd h (by rwa [mergeAndTrim_eq_take] at hyn)
    · exact h
  exact hcross x (by rwa [mergeAndTrim_eq_take] at hx) y hyd

/-- **C2.** After the per-profile history update, the stored list for the
profile is duplicate-free, has length at most 200 (exactly
`min 200 |union|`), draws all its elements from the union of the previous
history and the new identifiers, and keeps only numerically-largest
elements: every dropped element of the union is `≤` every kept one.  All
of this holds regardless of how many identifiers `newIds` carries. -/
theorem mergeAndTrim_bounded_union (old newIds : List Int) :
    (mergeAndTrim old newIds).Nodup ∧
    (mergeAndTrim old newIds).length ≤ 200 ∧
    (mergeAndTrim old newIds).length = min 200 ((old ++ newIds).dedup).length ∧
    (∀ x ∈ mergeAndTrim old newIds, x ∈ old ∨ x ∈ newIds) ∧
    (∀ y, (y ∈ old ∨ y ∈ newIds) → y ∉ mergeAndTrim old newIds →
      ∀ x ∈ mergeAndTrim old newIds, y ≤ x) := by
  refine ⟨mergeAndTrim_nodup old newIds, ?_, mergeAndTrim_length old newIds,
    fun x hx => mem_mergeAndTrim_of_mem hx,
    fun y hy hyn x hx => mergeAndTrim_keeps_largest hy hyn hx⟩
  rw [mergeAndTrim_length]
  exact min_le_left _ _

/-- Witness for C2 at a concrete oversized merge: 201 distinct identifiers
collapse to exactly 200 stored ones, duplicate-free. -/
theorem mergeAndTrim_bounded_union_witness :
    (mergeAndTrim ((List.range 200).map (fun i => 1000 + (i : Int))) [5]).Nodup ∧
    (mergeAndTrim ((List.range 200).map (fun i => 1000 + (i : Int))) [5]).length ≤ 200 := by
  have h := mergeAndTrim_bounded_union ((List.range 200).map (fun i => 1000 + (i : Int))) [5]
  exact ⟨h.1, h.2.1⟩

/-- A full history of 200 identifiers `1000, …, 1199`, all larger than the
fetched identifier `5` of the idempotence counterexample. -/
def histC5 : List Int := (List.range 200).map (fun i => 1000 + (i : Int))

set_option maxRecDepth 80000 in
/-- Counterexample to **C5** as stated: with a full history of 200 large
identifiers and a single fetched item with the small identifier `5`, the
first run reports the item as new but the `[:200]` trim immediately drops
`5` again, so the second run over the unchanged fetched items reports one
new item instead of zero. -/
theorem reconcile_twice_counterexample :
    (reconcile histC5 [mkItem 5]).1 = [mkItem 5] ∧
    ((reconcile ((reconcile histC5 [mkItem 5]).2) [mkItem 5]).1).length = 1 := by
  decide

/-- **C5 (amended).** Running reconciliation twice with identical fetched
items, the first run's history update applied, yields zero new items the
second time, provided the union of the initial history and the fetched
integer identifiers has at most 200 elements (so the `[:200]` trim drops
nothing); without that proviso the trim can evict a just-seen identifier
and the item is reported new again. -/
theorem reconcile_twice_no_new
    (known : List Int) (items : List Item)
    (h : ((known ++ items.filterMap (fun it => normId it.id)).dedup).length ≤ 200) :
    (reconcile ((reconcile known items).2) items).1 = [] := by
  set news := items.filter (isNewItem known) with hnews
  set newsIds := news.filterMap (fun it => normId it.id) with hnewsIds
  -- the trim drops nothing: the deduplicated union already fits in 200
  have hsub : (known ++ newsIds).toFinset ⊆
      (known ++ items.filterMap (fun it => normId it.id)).toFinset := by
    intro x hx
    rw [List.mem_toFinset, List.mem_append] at hx
    rw [List.mem_toFinset, List.mem_append]
    rcases hx with hx | hx
    · exact Or.inl hx
    · exact Or.inr (((List.filter_sublist items).filterMap _).mem hx)
  have hlen : ((known ++ newsIds).dedup).length ≤ 200 := by
    have := Finset.card_le_card hsub
    rw [List.card_toFinset, List.card_toFinset] at this
    exact le_trans this h
  have hfull : mergeAndTrim known newsIds = sortedUnion known newsIds := by
    rw [mergeAndTrim_eq_take]
    exact List.take_of_length_le (by rwa [(sortedUnion_perm known newsIds).length_eq])
  have hmem : ∀ x : Int, x ∈ known ∨ x ∈ newsIds → x ∈ (reconcile known items).2 := by
    intro x hx
    show x ∈ mergeAndTrim known newsIds
    rw [hfull]
    exact mem_sortedUnion.mpr hx
  -- no fetched item passes the second run's filter
  have hnil : items.filter (isNewItem ((reconcile known items).2)) = [] := by
    rw [List.filter_eq_nil_iff]
    intro it hit hnew
    unfold isNewItem at hnew
    cases hv : normId it.id with
    | none => rw [hv] at hnew; exact Bool.noConfusion hnew
    | some n =>
      rw [hv] at hnew
      have hnotin : n ∉ (reconcile known items).2 := by simpa using hnew
      by_cases hk : n ∈ known
      · exact hnotin (hmem n (Or.inl hk))
      · have hitnews : it ∈ news := by
          rw [hnews, List.mem_filter]
          exact ⟨hit, by unfold isNewItem; rw [hv]; simpa using hk⟩
        have : n ∈ newsIds := by
          rw [hnewsIds, List.mem_filterMap]
          exact ⟨it, hitnews, hv⟩
        exact hnotin (hmem n (Or.inr this))
  show List.insertionSort itemLe (items.filter (isNewItem ((reconcile known items).2))) = []
  rw [hnil]
  rfl

/-- Witness for the amended C5: the spec's scenario (history `{100,101}`,
fetched ids `{99,100,102}`, far below the cap) yields zero new items on the
second run. -/
theorem reconcile_twice_no_new_witness :
    (reconcile ((reconcile [100, 101] itemsScenario).2) itemsScenario).1 = [] :=
  reconcile_twice_no_new [100, 101] itemsScenario (by decide)

/-- Python truthiness of an optional string field: present and non-empty. -/
def pyTruthyOptStr : Option String → Bool
  | none => false
  | some s => decide (s ≠ "")

/-- Python `str.strip()`: drop whitespace from both ends, written over the
character list (extensionally `String.trim`, but in a form proofs can
evaluate). -/
def pyStrip (s : String) : String :=
  String.mk (((s.toList.dropWhile Char.isWhitespace).reverse.dropWhile
    Char.isWhitespace).reverse)

/-- `isinstance(v, str) and v.strip()` followed by `.strip()`: the stripped
string when the value is a string with non-whitespace content. -/
def srcStr : Option JVal → Option String
  | some (JVal.jstr s) => if pyStrip s = "" then none else some (pyStrip s)
  | _ => none

/-- The enrichment payload of `/api/v2/items/<id>` as the script probes it
(lines 237–264), after unwrapping the optional `{"item": {...}}` nesting.
`priceNumFmt` stands for the already-formatted string
`f"{float(source['price_numeric']):.2f} {source['currency']}"`: it is
`some _` exactly when `price_numeric` and `currency` are truthy and the
float conversion succeeds (floating-point formatting itself is outside the
embedding, and no claim depends on the produced text).  `photoUrl` is the
truthy `source["photo"]["url"]` when `photo` is a dict carrying one, and
`photosFirstUrl` the truthy `photos[0]["url"]` when `photos` is a
non-empty list whose head is a dict carrying one. -/
structure Source where
  price : Option JVal
  priceNumFmt : Option String
  photoUrl : Option String
  photosFirstUrl : Option String
  size_title : Option JVal
  size_label : Option JVal
  size_text : Option JVal
  brand_size : Option JVal
  size : Option JVal
deriving DecidableEq, Repr

/-- Lines 242–249: the price is filled only when the item's own price is
falsy, first from a non-blank string `source["price"]`, else from the
formatted numeric price. -/
def enrichPrice (it : Item) (src : Source) : Item :=
  if pyTruthyOptStr it.price then it
  else
    match srcStr src.price with
    | some s => { it with price := some s }
    | none =>
      match src.priceNumFmt with
      | some s => { it with price := some s }
      | none => it

/-- Lines 250–259: `photo = source.photo.url or photos[0].url`; whenever
one is found the item's photo is assigned — with no check that the item
already has one. -/
def enrichPhoto (it : Item) (src : Source) : Item :=
  match src.photoUrl with
  | some u => { it with photo := some u }
  | none =>
    match src.photosFirstUrl with
    | some u => { it with photo := some u }
    | none => it

/-- Lines 261–264: probe the five size keys in order and assign the first
non-blank string onto the item under the same key, then stop. -/
def enrichSize (it : Item) (src : Source) : Item :=
  match srcStr src.size_title with
  | some s => { it with size_title := some s }
  | none =>
    match srcStr src.size_label with
    | some s => { it with size_label := some s }
    | none =>
      match srcStr src.size_text with
      | some s => { it with size_text := some s }
      | none =>
        match srcStr src.brand_size with
        | some s => { it with brand_size := some s }
        | none =>
          match srcStr src.size with
          | some s => { it with size := some s }
          | none => it

/-- The whole per-item enrichment body executed for a 200-status JSON
source (lines 241–264), in source order: price, then photo, then size. -/
def enrichWithSource (it : Item) (src : Source) : Item :=
  enrichSize (enrichPhoto (enrichPrice it src) src) src

/-- Lines 231–268: the detail lookup runs only for a truthy `int` id
(`if item_id and isinstance(item_id, int)`); `lookup` returns the parsed
dict for a 200 response and `none` for any other status, transport
exception or non-dict body, in which case the item is kept unchanged. -/
def enrichOne (lookup : Int → Option Source) (it : Item) : Item :=
  match it.id with
  | some (JVal.jint n) =>
    if n = 0 then it
    else
      match lookup n with
      | some src => enrichWithSource it src
      | none => it
  | _ => it

/-- Outcome of the RSS body as far as `_parse_rss_items` distinguishes it:
`ET.fromstring` raised, the document has no `<channel>`, or a channel whose
entries normalise to the given items.  The per-entry extraction (regexes
for image, `/items/<id>` link id, salted-`hash` fallback id, price guess)
is abstracted: entries are given already normalised, since no claim
depends on the extraction internals. -/
inductive RssBody where
  | malformed
  | noChannel
  | channel (items : List Item)
deriving DecidableEq, Repr

/-- `_parse_rss_items` (lines 132–173): a body that fails to parse or has
no channel yields the empty list — it does NOT raise. -/
def parseRssItems : RssBody → List Item
  | RssBody.malformed => []
  | RssBody.noChannel => []
  | RssBody.channel items => items

/-- The error a per-profile fetch can surface to `main`:
`resp.raise_for_status()` raising `requests.HTTPError` for a 4xx/5xx feed
status (the spec's `SourceUnavailable`), or any other exception (caught by
the generic handler at lines 427–429). -/
inductive FetchErr where
  | sourceUnavailable (status : Nat)
  | otherException (msg : String)
deriving DecidableEq, Repr

/-- The feed HTTP response: status code and body. -/
structure RssResponse where
  status : Nat
  body : RssBody
deriving DecidableEq, Repr

/-- `fetch_user_items` (lines 178–271).  `apify` is the normalised Apify
result when the actor call returned a truthy item list (the whole Apify
branch swallows its own errors and falls through as `none`).  On the RSS
path, `raise_for_status` raises for status 4xx/5xx; otherwise the parsed
items, per-item enriched when `enrich` is set, are returned normally. -/
def fetchUserItems (apify : Option (List Item)) (resp : RssResponse)
    (lookup : Int → Option Source) (enrich : Bool) : Except FetchErr (List Item) :=
  match apify with
  | some items => Except.ok items
  | none =>
    if 400 ≤ resp.status ∧ resp.status < 600 then
      Except.error (FetchErr.sourceUnavailable resp.status)
    else
      let items := parseRssItems resp.body
      Except.ok (if enrich then items.map (enrichOne lookup) else items)

/-- Counterexample to **C3** as stated: a feed request that succeeds with
status 200 but carries an unparseable body makes `_parse_rss_items`
swallow the parse failure and return `[]`, so `fetch_user_items` returns
normally with an empty item list instead of surfacing an error. -/
theorem unparseable_body_counterexample :
    fetchUserItems none { status := 200, body := RssBody.malformed }
      (fun _ => none) true = Except.ok [] := rfl

/-- **C3 (amended).** If the feed HTTP request succeeds (status outside the
4xx/5xx range `raise_for_status` rejects) but the response body is
unparseable as a feed document — or parses without a `<channel>` — then
`fetch_user_items` returns normally with an empty item list; no error is
surfaced to the caller.  Only an HTTP-error status is surfaced. -/
theorem unparseable_body_returns_empty
    (status : Nat) (lookup : Int → Option Source) (enrich : Bool)
    (h : ¬ (400 ≤ status ∧ status < 600)) :
    fetchUserItems none { status := status, body := RssBody.malformed }
        lookup enrich = Except.ok [] ∧
    fetchUserItems none { status := status, body := RssBody.noChannel }
        lookup enrich = Except.ok [] := by
  constructor <;>
    · unfold fetchUserItems
      rw [if_neg h]
      cases enrich <;> rfl

/-- Witness for the amended C3 at status 200. -/
theorem unparseable_body_returns_empty_witness :
    fetchUserItems none { status := 200, body := RssBody.malformed }
        (fun _ => none) true = Except.ok [] ∧
    fetchUserItems none { status := 200, body := RssBody.noChannel }
        (fun _ => none) true = Except.ok [] :=
  unparseable_body_returns_empty 200 (fun _ => none) true (by decide)

theorem enrichPhoto_price (it : Item) (src : Source) :
    (enrichPhoto it src).price = it.price := by
  unfold enrichPhoto
  cases src.photoUrl <;> cases src.photosFirstUrl <;> rfl

theorem enrichSize_price (it : Item) (src : Source) :
    (enrichSize it src).price = it.price := by
  unfold enrichSize
  cases srcStr src.size_title <;> cases srcStr src.size_label <;>
    cases srcStr src.size_text <;> cases srcStr src.brand_size <;>
    cases srcStr src.size <;> rfl

theorem enrichSize_photo (it : Item) (src : Source) :
    (enrichSize it src).photo = it.photo := by
  unfold enrichSize
  cases srcStr src.size_title <;> cases srcStr src.size_label <;>
    cases srcStr src.size_text <;> cases srcStr src.brand_size <;>
    cases srcStr src.size <;> rfl

theorem enrichPrice_photo (it : Item) (src : Source) :
    (enrichPrice it src).photo = it.photo := by
  unfold enrichPrice
  cases pyTruthyOptStr it.price <;>
    cases srcStr src.price <;> cases src.priceNumFmt <;> rfl

theorem enrichPrice_of_truthy {it : Item} (src : Source)
    (h : pyTruthyOptStr it.price = true) : enrichPrice it src = it := by
  unfold enrichPrice
  rw [if_pos h]

theorem enrichPrice_size_fields (it : Item) (src : Source) :
    (enrichPrice it src).size_title = it.size_title ∧
    (enrichPrice it src).size_label = it.size_label ∧
    (enrichPrice it src).size_text = it.size_text ∧
    (enrichPrice it src).brand_size = it.brand_size ∧
    (enrichPrice it src).size = it.size := by
  unfold enrichPrice
  cases pyTruthyOptStr it.price <;> cases srcStr src.price <;>
    cases src.priceNumFmt <;> exact ⟨rfl, rfl, rfl, rfl, rfl⟩

theorem enrichPhoto_size_fields (it : Item) (src : Source) :
    (enrichPhoto it src).size_title = it.size_title ∧
    (enrichPhoto it src).size_label = it.size_label ∧
    (enrichPhoto it src).size_text = it.size_text ∧
    (enrichPhoto it src).brand_size = it.brand_size ∧
    (enrichPhoto it src).size = it.size := by
  unfold enrichPhoto
  cases src.photoUrl <;> cases src.photosFirstUrl <;> exact ⟨rfl, rfl, rfl, rfl, rfl⟩

/-- A feed item that already carries a photo before enrichment. -/
def itemWithPhoto : Item := { mkItem 7 with photo := some "a.jpg" }

/-- An enrichment source whose only payload is a photo URL. -/
def srcWithPhoto : Source :=
  { price := none, priceNumFmt := none, photoUrl := some "b.jpg",
    photosFirstUrl := none, size_title := none, size_label := none,
    size_text := none, brand_size := none, size := none }

/-- Counterexample to **C4** as stated: an item that already carries a
photo URL before the enrichment lookup has it replaced by the photo the
detail endpoint returns — the image assignment at lines 250–259 checks
only the source, never whether the field is still absent on the item. -/
theorem enrichment_overwrites_present_photo_counterexample :
    itemWithPhoto.photo = some "a.jpg" ∧
    (enrichOne (fun _ => some srcWithPhoto) itemWithPhoto).photo = some "b.jpg" ∧
    decide ((some "b.jpg" : Option String) ≠ some "a.jpg") = true := by
  refine ⟨rfl, rfl, by decide⟩

/-- **C4 (amended).** The per-item enrichment overwrites the price field
only when it is still absent (a present non-empty price keeps its value),
but the image field is assigned whenever the enrichment source supplies a
photo URL — even if the item already has one — and keeps its old value
only when the source supplies none; likewise the first size key the probe
finds non-blank on the source (in the order size_title, size_label,
size_text, brand_size, size) is assigned onto the item unconditionally,
and the size fields keep their old values only when the source offers no
non-blank size at all. -/
theorem enrichment_price_preserved_photo_from_source (it : Item) (src : Source) :
    (pyTruthyOptStr it.price = true → (enrichWithSource it src).price = it.price) ∧
    (∀ u, src.photoUrl = some u → (enrichWithSource it src).photo = some u) ∧
    (src.photoUrl = none → ∀ u, src.photosFirstUrl = some u →
      (enrichWithSource it src).photo = some u) ∧
    (src.photoUrl = none → src.photosFirstUrl = none →
      (enrichWithSource it src).photo = it.photo) ∧
    (∀ v, srcStr src.size_title = some v →
      (enrichWithSource it src).size_title = some v) ∧
    (srcStr src.size_title = none → ∀ v, srcStr src.size_label = some v →
      (enrichWithSource it src).size_label = some v) ∧
    (srcStr src.size_title = none → srcStr src.size_label = none →
      ∀ v, srcStr src.size_text = some v →
      (enrichWithSource it src).size_text = some v) ∧
    (srcStr src.size_title = none → srcStr src.size_label = none →
      srcStr src.size_text = none → ∀ v, srcStr src.brand_size = some v →
      (enrichWithSource it src).brand_size = some v) ∧
    (srcStr src.size_title = none → srcStr src.size_label = none →
      srcStr src.size_text = none → srcStr src.brand_size = none →
      ∀ v, srcStr src.size = some v → (enrichWithSource it src).size = some v) ∧
    (srcStr src.size_title = none → srcStr src.size_label = none →
      srcStr src.size_text = none → srcStr src.brand_size = none →
      srcStr src.size = none →
      (enrichWithSource it src).size_title = it.size_title ∧
      (enrichWithSource it src).size_label = it.size_label ∧
      (enrichWithSource it src).size_text = it.size_text ∧
      (enrichWithSource it src).brand_size = it.brand_size ∧
      (enrichWithSource it src).size = it.size) := by
  refine ⟨?_, ?_, ?_, ?_, ?_, ?_, ?_, ?_, ?_, ?_⟩
  · intro h
    unfold enrichWithSource
    rw [enrichSize_price, enrichPhoto_price, enrichPrice_of_truthy src h]
  · intro u hu
    unfold enrichWithSource
    rw [enrichSize_photo]
    unfold enrichPhoto
    rw [hu]
  · intro h1 u hu
    unfold enrichWithSource
    rw [enrichSize_photo]
    unfold enrichPhoto
    rw [h1, hu]
  · intro h1 h2
    unfold enrichWithSource
    rw [enrichSize_photo]
    unfold enrichPhoto
    rw [h1, h2, enrichPrice_photo]
  · intro v hv
    unfold enrichWithSource enrichSize
    rw [hv]
  · intro h1 v hv
    unfold enrichWithSource enrichSize
    rw [h1, hv]
  · intro h1 h2 v hv
    unfold enrichWithSource enrichSize
    rw [h1, h2, hv]
  · intro h1 h2 h3 v hv
    unfold enrichWithSource enrichSize
    rw [h1, h2, h3, hv]
  · intro h1 h2 h3 h4 v hv
    unfold enrichWithSource enrichSize
    rw [h1, h2, h3, h4, hv]
  · intro h1 h2 h3 h4 h5
    unfold enrichWithSource
    have hsz : enrichSize (enrichPhoto (enrichPrice it src) src) src
        = enrichPhoto (enrichPrice it src) src := by
      unfold enrichSize
      rw [h1, h2, h3, h4, h5]
    rw [hsz]
    have hp := enrichPhoto_size_fields (enrichPrice it src) src
    have hq := enrichPrice_size_fields it src
    exact ⟨hp.1.trans hq.1, hp.2.1.trans hq.2.1, hp.2.2.1.trans hq.2.2.1,
      hp.2.2.2.1.trans hq.2.2.2.1, hp.2.2.2.2.trans hq.2.2.2.2⟩

/-- An enrichment source whose only payload is the size string "M". -/
def srcWithSize : Source :=
  { price := none, priceNumFmt := none, photoUrl := none,
    photosFirstUrl := none, size_title := some (JVal.jstr "M"),
    size_label := none, size_text := none, brand_size := none, size := none }

/-- A feed item that already carries a size_title before enrichment. -/
def itemWithSize : Item := { mkItem 8 with size_title := some "L" }

/-- Witness for the amended C4: a priced item keeps its price and receives
the source photo, and a source size overwrites a size already present. -/
theorem enrichment_price_preserved_photo_from_source_witness :
    (enrichWithSource { itemWithPhoto with price := some "5 EUR" }
      srcWithPhoto).price = some "5 EUR" ∧
    (enrichWithSource { itemWithPhoto with price := some "5 EUR" }
      srcWithPhoto).photo = some "b.jpg" ∧
    (enrichWithSource itemWithSize srcWithSize).size_title = some "M" := by
  have h := enrichment_price_preserved_photo_from_source
    { itemWithPhoto with price := some "5 EUR" } srcWithPhoto
  have h2 := enrichment_price_preserved_photo_from_source itemWithSize srcWithSize
  exact ⟨(h.1 (by decide)).trans rfl, h.2.1 _ rfl,
    h2.2.2.2.2.1 "M" (by decide)⟩

/-- Fuel-driven worker for the chunk slicing: each step peels off one
`take n` slice and recurses on the `drop n` remainder; the fuel is an
upper bound on the number of steps (each step consumes at least one
element when `n ≥ 1`, so `l.length` fuel always suffices). -/
def chunksOfFuel (n : Nat) : Nat → List α → List (List α)
  | _, [] => []
  | 0, _ :: _ => []
  | f + 1, x :: xs => (x :: xs).take n :: chunksOfFuel n f ((x :: xs).drop n)

/-- The chunk slicing of `post_to_discord`
(`for i in range(0, len(embeds), CHUNK): embeds[i:i + CHUNK]`, lines
374–376), as successive `take`/`drop` slices of width `n`. -/
def chunksOf (n : Nat) (l : List α) : List (List α) :=
  chunksOfFuel n l.length l

theorem chunksOfFuel_ten_flatten :
    ∀ (f : Nat) (l : List α), l.length ≤ f →
      (chunksOfFuel 10 f l).flatten = l := by
  intro f
  induction f with
  | zero =>
    intro l hl
    cases l with
    | nil => rfl
    | cons x xs => simp at hl
  | succ f ih =>
    intro l hl
    match l with
    | [] => rfl
    | x :: xs =>
      rw [chunksOfFuel]
      simp only [List.flatten_cons]
      rw [ih ((x :: xs).drop 10)
        (by simp only [List.length_drop, List.length_cons]
            simp only [List.length_cons] at hl
            omega)]
      exact List.take_append_drop 10 (x :: xs)

theorem chunksOf_ten_flatten (l : List α) : (chunksOf 10 l).flatten = l :=
  chunksOfFuel_ten_flatten l.length l le_rfl

theorem chunksOfFuel_ten_length :
    ∀ (f : Nat) (l : List α), l.length ≤ f →
      (chunksOfFuel 10 f l).length = (l.length + 9) / 10 := by
  intro f
  induction f with
  | zero =>
    intro l hl
    cases l with
    | nil => simp [chunksOfFuel]
    | cons x xs => simp at hl
  | succ f ih =>
    intro l hl
    match l with
    | [] => simp [chunksOfFuel]
    | x :: xs =>
      rw [chunksOfFuel]
      simp only [List.length_cons] at hl ⊢
      rw [ih ((x :: xs).drop 10) (by simp only [List.length_drop, List.length_cons]; omega)]
      simp only [List.length_drop, List.length_cons]
      omega

theorem chunksOf_ten_length (l : List α) :
    (chunksOf 10 l).length = (l.length + 9) / 10 :=
  chunksOfFuel_ten_length l.length l le_rfl

theorem chunksOfFuel_ten_mem_length :
    ∀ (f : Nat) (l : List α) (c : List α), c ∈ chunksOfFuel 10 f l →
      c.length ≤ 10 := by
  intro f
  induction f with
  | zero =>
    intro l c hc
    cases l <;> cases hc
  | succ f ih =>
    intro l c hc
    match l with
    | [] => cases hc
    | x :: xs =>
      rw [chunksOfFuel] at hc
      rcases List.mem_cons.mp hc with hc | hc
      · subst hc
        simp only [List.length_take, List.length_cons]
        omega
      · exact ih _ _ hc

theorem chunksOf_ten_mem_length {l : List α} {c : List α}
    (h : c ∈ chunksOf 10 l) : c.length ≤ 10 :=
  chunksOfFuel_ten_mem_length l.length l c h

/-- Python's character slice `s[:n]`, taken over the character list (which
is what a Python `str` slice does; `String.take` is extensionally the same
but iterates 300 byte positions even on short strings, which only matters
for proof evaluation). -/
def pyTake (s : String) (n : Nat) : String := String.mk (s.toList.take n)

/-- Outcome of one `requests.post` call to the webhook: a response with a
status code and body text, or a raised transport exception carrying the
message the handler interpolates. -/
inductive PostResult where
  | resp (status : Nat) (text : String)
  | exc (msg : String)
deriving DecidableEq, Repr

/-- Whether one chunk's outcome counts as success
(`200 <= resp.status_code < 300`, and an exception never does). -/
def resultOk : PostResult → Bool
  | PostResult.resp st _ => decide (200 ≤ st ∧ st < 300)
  | PostResult.exc _ => false

/-- The chunk loop of `post_to_discord` (lines 372–386), threading the
`ok_all`/`msg` accumulators exactly as the source does and additionally
recording, per iteration, the chunk handed to `requests.post` — the
network-call trace.  A non-2xx response or an exception flips `ok_all`
to `False` and replaces `msg`; processing always continues with the next
chunk. -/
def postLoop (send : List Item → PostResult) :
    List (List Item) → Bool → String → (Bool × String) × List (List Item)
  | [], okAll, msg => ((okAll, msg), [])
  | c :: cs, okAll, msg =>
    let next :=
      match send c with
      | PostResult.resp st text =>
        if 200 ≤ st ∧ st < 300 then (okAll, msg)
        else (false, "Falha do Discord (" ++ toString st ++ "): " ++ pyTake text 300)
      | PostResult.exc m => (false, "Erro ao enviar para Discord: " ++ m)
    let r := postLoop send cs next.1 next.2
    (r.1, c :: r.2)

/-- `post_to_discord(webhook_url, embeds)` (lines 371–386): chunk the
embeds by 10, run the loop with `ok_all = True, msg = ""`, return the
pair. -/
def postToDiscord (send : List Item → PostResult) (embeds : List Item) :
    Bool × String :=
  (postLoop send (chunksOf 10 embeds) true "").1

/-- One call is attempted per chunk, in order, regardless of failures. -/
theorem postLoop_calls (send : List Item → PostResult) :
    ∀ (cs : List (List Item)) (okAll : Bool) (msg : String),
      (postLoop send cs okAll msg).2 = cs := by
  intro cs
  induction cs with
  | nil => intro okAll msg; rfl
  | cons c cs ih =>
    intro okAll msg
    rw [postLoop]
    simp only [ih]

/-- The final `ok_all` is the conjunction of the incoming flag with
per-chunk success. -/
theorem postLoop_ok (send : List Item → PostResult) :
    ∀ (cs : List (List Item)) (okAll : Bool) (msg : String),
      (postLoop send cs okAll msg).1.1
        = (okAll && cs.all (fun c => resultOk (send c))) := by
  intro cs
  induction cs with
  | nil => intro okAll msg; simp [postLoop]
  | cons c cs ih =>
    intro okAll msg
    rw [postLoop]
    cases hs : send c with
    | resp st text =>
      by_cases h2 : 200 ≤ st ∧ st < 300
      · simp only [hs, if_pos h2, ih, List.all_cons, resultOk, decide_eq_true_eq]
        simp [h2]
      · simp only [hs, if_neg h2, ih, List.all_cons, resultOk]
        simp [h2]
    | exc m =>
      simp only [hs, ih, List.all_cons, resultOk]
      simp

/-- The 11 embeds of the two-chunk failure scenario. -/
def embedsTwoChunks : List Item := (List.range 11).map (fun i => mkItem (i : Int))

/-- A webhook that answers 500 "boom" to the first (10-element) chunk and
204 to the second (1-element) chunk. -/
def sendFailFirst : List Item → PostResult :=
  fun c => if c.length = 1 then PostResult.resp 204 "" else PostResult.resp 500 "boom"

set_option maxRecDepth 4000 in
/-- **C7.** A failing chunk (non-2xx response or transport exception)
marks the overall result as failed while every chunk is still attempted
(the call trace is the full chunk list); in the concrete two-chunk
scenario where chunk 1 fails with 500 "boom" and chunk 2 succeeds, the
dispatcher returns `(False, chunk-1's error message)`. -/
theorem dispatcher_tolerates_partial_failure
    (send : List Item → PostResult) (embeds : List Item)
    (h : ∃ c ∈ chunksOf 10 embeds, resultOk (send c) = false) :
    (postToDiscord send embeds).1 = false ∧
    (postLoop send (chunksOf 10 embeds) true "").2 = chunksOf 10 embeds ∧
    postToDiscord sendFailFirst embedsTwoChunks
      = (false, "Falha do Discord (500): boom") := by
  refine ⟨?_, postLoop_calls send _ true "", by decide⟩
  unfold postToDiscord
  rw [postLoop_ok]
  obtain ⟨c, hc, hfail⟩ := h
  cases hall : (chunksOf 10 embeds).all (fun c => resultOk (send c)) with
  | false => simp
  | true =>
    have := (List.all_eq_true.mp hall) c hc
    rw [hfail] at this
    cases this

set_option maxRecDepth 4000 in
/-- Witness for C7: the two-chunk scenario itself. -/
theorem dispatcher_tolerates_partial_failure_witness :
    (postToDiscord sendFailFirst embedsTwoChunks).1 = false ∧
    postToDiscord sendFailFirst embedsTwoChunks
      = (false, "Falha do Discord (500): boom") := by
  have h := dispatcher_tolerates_partial_failure sendFailFirst embedsTwoChunks
    (by refine ⟨(embedsTwoChunks.take 10), ?_, ?_⟩ <;> decide)
  exact ⟨h.1, h.2.2⟩

/-- The 23 embeds of the chunk-count scenario. -/
def embeds23 : List Item := (List.range 23).map (fun i => mkItem (i : Int))

set_option maxRecDepth 4000 in
/-- **C8.** The dispatcher splits `n` payloads into `⌈n/10⌉` consecutive
chunks of at most 10 each, preserving order (their concatenation is the
original list), and issues exactly one network call per chunk (the call
trace equals the chunk list); 23 payloads yield exactly 3 calls with
chunk sizes 10, 10, 3. -/
theorem dispatcher_chunking (send : List Item → PostResult) (embeds : List Item) :
    (postLoop send (chunksOf 10 embeds) true "").2 = chunksOf 10 embeds ∧
    (chunksOf 10 embeds).length = (embeds.length + 9) / 10 ∧
    (∀ c ∈ chunksOf 10 embeds, c.length ≤ 10) ∧
    (chunksOf 10 embeds).flatten = embeds ∧
    (chunksOf 10 embeds23).map List.length = [10, 10, 3] := by
  exact ⟨postLoop_calls send _ true "", chunksOf_ten_length embeds,
    fun c hc => chunksOf_ten_mem_length hc, chunksOf_ten_flatten embeds, by decide⟩

/-- Witness for C8: the 23-payload scenario yields three calls of sizes
10, 10 and 3. -/
theorem dispatcher_chunking_witness :
    (chunksOf 10 embeds23).map List.length = [10, 10, 3] ∧
    (chunksOf 10 embeds23).length = (embeds23.length + 9) / 10 := by
  have h := dispatcher_chunking (fun _ => PostResult.resp 204 "") embeds23
  exact ⟨h.2.2.2.2, h.2.1⟩

/-- `history.get(user_id, [])` over the association-list view of the
history dict. -/
def lookupHist (h : List (String × List Int)) (uid : String) : List Int :=
  match h.find? (fun p => p.1 == uid) with
  | some p => p.2
  | none => []

/-- `history[user_id] = v`: update in place, or append a fresh binding. -/
def setHist (h : List (String × List Int)) (uid : String) (v : List Int) :
    List (String × List Int) :=
  if h.any (fun p => p.1 == uid) then
    h.map (fun p => if p.1 == uid then (p.1, v) else p)
  else h ++ [(uid, v)]

/-- One iteration of the per-profile loop of `main` (lines 420–466): a
fetch that raises is logged and `continue`d over with the run state
untouched; a successful fetch reconciles the items against the profile's
known ids, stores the trimmed union under the profile and appends the new
items to the accumulated embed list (`build_discord_embed` is injective
bookkeeping the claims never inspect, so the embed stands for its item). -/
def processUser (fetchReq : String → Except FetchErr (List Item))
    (st : List (String × List Int) × List Item) (uid : String) :
    List (String × List Int) × List Item :=
  match fetchReq uid with
  | Except.error _ => st
  | Except.ok items =>
    let known := lookupHist st.1 uid
    let r := reconcile known items
    (setHist st.1 uid r.2, st.2 ++ r.1)

/-- The whole per-profile loop: fold over the configured profile ids,
starting from the loaded history and no accumulated embeds. -/
def runProfiles (fetchReq : String → Except FetchErr (List Item))
    (hist0 : List (String × List Int)) (uids : List String) :
    List (String × List Int) × List Item :=
  uids.foldl (processUser fetchReq) (hist0, [])

/-- **C6.** If the fetch for a profile raises (in particular
`raise_for_status` turning an HTTP 503 into the spec's
`SourceUnavailable`), the run state after processing that profile is
exactly the state of a run without it: no history mutation occurs for the
failed profile, no embeds are added for it, and the remaining profiles
are processed unchanged.  Second conjunct: an HTTP-error status on the
feed request is surfaced as `SourceUnavailable` carrying that status. -/
theorem failed_profile_skipped
    (fetchReq : String → Except FetchErr (List Item)) (uid : String)
    (rest : List String) (hist0 : List (String × List Int)) (e : FetchErr)
    (h : fetchReq uid = Except.error e) :
    runProfiles fetchReq hist0 (uid :: rest) = runProfiles fetchReq hist0 rest ∧
    (∀ (st : Nat) (body : RssBody) (lookup : Int → Option Source) (en : Bool),
      400 ≤ st → st < 600 →
      fetchUserItems none { status := st, body := body } lookup en
        = Except.error (FetchErr.sourceUnavailable st)) := by
  constructor
  · unfold runProfiles
    rw [List.foldl_cons]
    unfold processUser
    rw [h]
  · intro st body lookup en h1 h2
    unfold fetchUserItems
    rw [if_pos ⟨h1, h2⟩]

/-- A fetch that always fails with HTTP 503. -/
def fetch503 : String → Except FetchErr (List Item) :=
  fun _ => Except.error (FetchErr.sourceUnavailable 503)

/-- Witness for C6: the spec's 503 scenario. -/
theorem failed_profile_skipped_witness :
    runProfiles fetch503 [] ["278727725", "123456"]
      = runProfiles fetch503 [] ["123456"] ∧
    fetchUserItems none { status := 503, body := RssBody.malformed }
      (fun _ => none) true = Except.error (FetchErr.sourceUnavailable 503) := by
  have h := failed_profile_skipped fetch503 "278727725" ["123456"] []
    (FetchErr.sourceUnavailable 503) rfl
  exact ⟨h.1, h.2 503 RssBody.malformed (fun _ => none) true (by decide) (by decide)⟩

/-- An externally visible action of one run, in execution order. -/
inductive Event where
  | fetchProfile (uid : String)
  | saveHistory
  | postChunk (chunk : List Item)
deriving DecidableEq, Repr

/-- The run's action trace as `main` sequences its statements
(lines 414–480): one fetch (with reconciliation) per configured profile,
in order; then exactly one `save_history` call (line 469, attempted even
when saving later fails); then one webhook POST per chunk of the
accumulated embeds (lines 473–478; no embeds means no POST, which the
empty chunk list already expresses). -/
def mainTrace (fetchReq : String → Except FetchErr (List Item))
    (hist0 : List (String × List Int)) (uids : List String) : List Event :=
  uids.map Event.fetchProfile
    ++ [Event.saveHistory]
    ++ (chunksOf 10 (runProfiles fetchReq hist0 uids).2).map Event.postChunk

/-- **C9.** In every run, the history is persisted exactly once, and that
persistence sits after every per-profile fetch/reconcile action and
before every notification POST: the trace decomposes as
fetch-actions ++ [save] ++ post-actions. -/
theorem history_saved_once_before_posts
    (fetchReq : String → Except FetchErr (List Item))
    (hist0 : List (String × List Int)) (uids : List String) :
    (mainTrace fetchReq hist0 uids).count Event.saveHistory = 1 ∧
    ∃ pre post,
      mainTrace fetchReq hist0 uids = pre ++ Event.saveHistory :: post ∧
      (∀ ev ∈ pre, ∃ uid, ev = Event.fetchProfile uid) ∧
      (∀ ev ∈ post, ∃ c, ev = Event.postChunk c) := by
  constructor
  · unfold mainTrace
    rw [List.count_append, List.count_append]
    have h1 : (uids.map Event.fetchProfile).count Event.saveHistory = 0 :=
      List.count_eq_zero.mpr (by simp)
    have h2 : ((chunksOf 10 (runProfiles fetchReq hist0 uids).2).map
        Event.postChunk).count Event.saveHistory = 0 :=
      List.count_eq_zero.mpr (by simp)
    rw [h1, h2]
    rfl
  · refine ⟨uids.map Event.fetchProfile,
      (chunksOf 10 (runProfiles fetchReq hist0 uids).2).map Event.postChunk,
      by simp [mainTrace], ?_, ?_⟩
    · intro ev hev
      obtain ⟨uid, _, rfl⟩ := List.mem_map.mp hev
      exact ⟨uid, rfl⟩
    · intro ev hev
      obtain ⟨c, _, rfl⟩ := List.mem_map.mp hev
      exact ⟨c, rfl⟩

/-- Witness for C9 on a concrete run. -/
theorem history_saved_once_before_posts_witness :
    (mainTrace fetch503 [] ["278727725"]).count Event.saveHistory = 1 :=
  (history_saved_once_before_posts fetch503 [] ["278727725"]).1

/-- Python `int(s)` on a string: surrounding whitespace is stripped, an
optional sign precedes decimal digits (digit-group underscores are not
modelled; no claim exercises them). -/
def pyIntOfString (s : String) : Option Int :=
  let t := s.trim
  if t.startsWith "-" then ((t.drop 1).toNat?).map (fun n => -(n : Int))
  else if t.startsWith "+" then ((t.drop 1).toNat?).map (fun n => (n : Int))
  else (t.toNat?).map (fun n => (n : Int))

/-- Python `int(v)` as `load_history` applies it to each stored value: an
`int` stays itself, a string parses or raises (`none`), any other shape
raises. -/
def pyInt : JVal → Option Int
  | JVal.jint n => some n
  | JVal.jstr s => pyIntOfString s
  | JVal.jother => none

/-- `list(map(int, v))`: every value converts, or the call raises. -/
def convInts : List JVal → Option (List Int)
  | [] => some []
  | v :: vs =>
    match pyInt v, convInts vs with
    | some n, some ns => some (n :: ns)
    | _, _ => none

/-- The dict comprehension of `load_history`: every profile's value list
converts, or the comprehension raises. -/
def convMap : List (String × List JVal) → Option (List (String × List Int))
  | [] => some []
  | p :: ps =>
    match convInts p.2, convMap ps with
    | some ns, some rest => some ((p.1, ns) :: rest)
    | _, _ => none

/-- `load_history` (lines 276–284): a missing file, unparseable JSON or a
body of the wrong shape gives `data = none` and yields `{}`; otherwise
every stored value is converted with `int`, and any conversion error makes
the whole load fall back to `{}` — so a loaded history only ever holds
integers. -/
def loadHistory (data : Option (List (String × List JVal))) :
    List (String × List Int) :=
  match data with
  | none => []
  | some m =>
    match convMap m with
    | some m2 => m2
    | none => []

theorem convInts_eq_none {vs : List JVal} {v : JVal}
    (hv : v ∈ vs) (h : pyInt v = none) : convInts vs = none := by
  induction vs with
  | nil => cases hv
  | cons w ws ih =>
    rcases List.mem_cons.mp hv with rfl | hv2
    · unfold convInts
      rw [h]
    · unfold convInts
      rw [ih hv2]
      cases pyInt w <;> rfl

theorem convMap_eq_none {m : List (String × List JVal)}
    {p : String × List JVal} (hp : p ∈ m) (h : convInts p.2 = none) :
    convMap m = none := by
  induction m with
  | nil => cases hp
  | cons q qs ih =>
    rcases List.mem_cons.mp hp with rfl | hp2
    · unfold convMap
      rw [h]
    · unfold convMap
      rw [ih hp2]
      cases convInts q.2 <;> rfl

/-- Membership in the first reconciliation component is membership in the
new-item filter. -/
theorem mem_reconcile_fst {known : List Int} {items : List Item} {it : Item} :
    it ∈ (reconcile known items).1 ↔ it ∈ items.filter (isNewItem known) :=
  (List.perm_insertionSort itemLe _).mem_iff

/-- **C10.** Only fetched items whose raw identifier is an integer — or a
decimal-digit string, which is converted — can be reported new or feed
the stored history: every reported item has a normalised integer id
absent from the history; an item whose id does not normalise is excluded
even though it is absent from the history; every identifier the update
stores comes from the prior history or from a normalised fetched id; a
digit-string id unseen so far IS reported; and a persisted record with
any non-integer-convertible value loads as the empty history, so loaded
histories contain integers only. -/
theorem only_integer_ids_notified_and_stored (known : List Int) (items : List Item) :
    (∀ it ∈ (reconcile known items).1,
      ∃ n : Int, normId it.id = some n ∧ n ∉ known) ∧
    (∀ it ∈ items, normId it.id = none → it ∉ (reconcile known items).1) ∧
    (∀ n ∈ (reconcile known items).2,
      n ∈ known ∨ ∃ it ∈ items, normId it.id = some n) ∧
    (∀ it ∈ items, ∀ (s : String) (k : Nat), it.id = some (JVal.jstr s) →
      s.toNat? = some k → (k : Int) ∉ known → it ∈ (reconcile known items).1) ∧
    (∀ m : List (String × List JVal),
      (∃ p ∈ m, ∃ v ∈ p.2, pyInt v = none) → loadHistory (some m) = []) := by
  refine ⟨?_, ?_, ?_, ?_, ?_⟩
  · intro it hit
    have hf := List.mem_filter.mp (mem_reconcile_fst.mp hit)
    unfold isNewItem at hf
    cases hv : normId it.id with
    | none => rw [hv] at hf; cases hf.2
    | some n =>
      rw [hv] at hf
      exact ⟨n, rfl, by simpa using hf.2⟩
  · intro it _ hnone hmem
    have hf := List.mem_filter.mp (mem_reconcile_fst.mp hmem)
    unfold isNewItem at hf
    rw [hnone] at hf
    cases hf.2
  · intro n hn
    rcases mem_mergeAndTrim_of_mem hn with hk | hnew
    · exact Or.inl hk
    · obtain ⟨it, hitf, hid⟩ := List.mem_filterMap.mp hnew
      exact Or.inr ⟨it, List.mem_of_mem_filter hitf, hid⟩
  · intro it hit s k hid hk hnot
    refine mem_reconcile_fst.mpr (List.mem_filter.mpr ⟨hit, ?_⟩)
    unfold isNewItem
    rw [show normId it.id = some (k : Int) by simp [normId, hid, hk]]
    simpa using hnot
  · intro m hm
    obtain ⟨p, hp, v, hv, hvnone⟩ := hm
    show (match convMap m with
      | some m2 => m2
      | none => []) = []
    rw [convMap_eq_none hp (convInts_eq_none hv hvnone)]

/-- An item whose id is neither an `int` nor a digit string. -/
def itemNoIntId : Item := { mkItem 0 with id := some JVal.jother }

/-- Witness for C10: the non-integer-id item is not reported even with an
empty history, and a record holding a non-convertible value loads empty. -/
theorem only_integer_ids_notified_and_stored_witness :
    ((reconcile [] [itemNoIntId]).1).length = 0 ∧
    loadHistory (some [("278727725", [JVal.jother])]) = [] := by
  have h := only_integer_ids_notified_and_stored [] [itemNoIntId]
  refine ⟨by decide, h.2.2.2.2 [("278727725", [JVal.jother])] ?_⟩
  exact ⟨("278727725", [JVal.jother]), by simp, JVal.jother, by simp, rfl⟩
